import Mathlib

/-!
Verification development for the AYUSH-BRIDGE terminology service
(backend/server.js). The definitions below are a shallow embedding of the
code normalizer (`extractMappingCodes`), the hybrid translation endpoint
(`GET /ConceptMap/translate`), and the ingestion upsert statements of
`generateCodeSystem`. Database tables are modelled as lists of rows; the
remote semantic-search microservice is modelled as an oracle function; the
endpoint additionally returns a trace of the store lookups and remote calls
it performs, so that claims about which collaborators are (not) invoked can
be stated.
-/

namespace AstraAPI

/-! ### Character classes used by the source regexes -/

/-- Membership in the regex character class `[A-Z]`. -/
def isUpperAZ (c : Char) : Bool := decide ('A' ≤ c ∧ c ≤ 'Z')

/-- Membership in the regex character class `\d`, i.e. `[0-9]`. -/
def isDigit09 (c : Char) : Bool := decide ('0' ≤ c ∧ c ≤ '9')

/-- Whitespace as matched by the JavaScript `\s` class and `trim`
(restricted to the ASCII whitespace characters). -/
def isJsWs (c : Char) : Bool :=
  decide (c = ' ' ∨ c = '\t' ∨ c = '\n' ∨ c = '\r')

/-! ### Tokenization: `inputString.replace(/[()]/g, ' ').trim().split(/\s+/).filter(p => p)` -/

/-- The `replace(/[()]/g, ' ')` step: parentheses become spaces. -/
def replaceParens (cs : List Char) : List Char :=
  cs.map (fun c => if c = '(' ∨ c = ')' then ' ' else c)

/-- Splits a character list into maximal runs of non-whitespace characters.
`cur` is the (reversed) token being accumulated. Combined with dropping
empty strings this is exactly `trim().split(/\s+/).filter(p => p)`. -/
def splitWsAux : List Char → List Char → List String
  | [], cur => if cur.isEmpty then [] else [String.mk cur.reverse]
  | c :: cs, cur =>
    if isJsWs c then
      if cur.isEmpty then splitWsAux cs [] else String.mk cur.reverse :: splitWsAux cs []
    else
      splitWsAux cs (c :: cur)

/-- The token list `parts` computed at the top of `extractMappingCodes`. -/
def tokenize (s : String) : List String :=
  splitWsAux (replaceParens s.data) []

/-! ### The two anchored token grammars -/

/-- The test `/(^[A-Z]{3}-\d+$)|(^[A-Z]{1,3}$)/.test(s)` (the NAMASTE
grammar). Since the regex is anchored and its character classes are
disjoint, a run-based scan decides it: either exactly three leading
uppercase letters followed by a hyphen and one or more digits, or one to
three uppercase letters and nothing else. -/
def namasteTest (s : String) : Bool :=
  (((s.data.takeWhile isUpperAZ).length == 3) &&
    ((s.data.dropWhile isUpperAZ).head? == some '-') &&
    decide (1 ≤ (s.data.dropWhile isUpperAZ).tail.length) &&
    (s.data.dropWhile isUpperAZ).tail.all isDigit09)
  || (decide (1 ≤ s.data.length) && decide (s.data.length ≤ 3) && s.data.all isUpperAZ)

/-- Decides the regex fragment `([A-Z])?$`: nothing, or one uppercase
letter. -/
def optLetterEnd (cs : List Char) : Bool :=
  decide (cs.length ≤ 1) && cs.all isUpperAZ

/-- Decides the part of the ICD grammar after `^[A-Z]{1,3}\d+`, namely
`(\.\d+)?([A-Z])?$`: either an optional single letter ends the token, or a
dot followed by one or more digits and then an optional single letter. -/
def icdTail (r2 : List Char) : Bool :=
  optLetterEnd r2 ||
  ((r2.head? == some '.') &&
   decide (1 ≤ (r2.tail.takeWhile isDigit09).length) &&
   optLetterEnd (r2.tail.dropWhile isDigit09))

/-- The test `/^[A-Z]{1,3}\d+(\.\d+)?([A-Z])?$/.test(s)` (the ICD grammar
`icdPattern` of `extractMappingCodes`). -/
def icdTest (s : String) : Bool :=
  decide (1 ≤ (s.data.takeWhile isUpperAZ).length) &&
  decide ((s.data.takeWhile isUpperAZ).length ≤ 3) &&
  decide (1 ≤ ((s.data.dropWhile isUpperAZ).takeWhile isDigit09).length) &&
  icdTail ((s.data.dropWhile isUpperAZ).dropWhile isDigit09)

/-! ### `extractMappingCodes` -/

/-- The pair returned by `extractMappingCodes`; each component is a string
or `null`. -/
structure MappingCodes where
  namasteCode : Option String
  icdCode : Option String
deriving DecidableEq, Repr

/-- A JavaScript value as it may arrive at `extractMappingCodes`: the
function guards with `!inputString || typeof inputString !== 'string'`. -/
inductive JsVal where
  | jnull
  | jundefined
  | jbool (b : Bool)
  | jnum (n : Int)
  | jstr (s : String)
deriving DecidableEq, Repr

/-- One step of the classification loop
`for (const part of parts) { if (icdPattern.test(part)) icdCode = part; else namasteCode = part; }`;
the accumulator is the pair `(namasteCode, icdCode)`. -/
def scanStep (acc : Option String × Option String) (p : String) :
    Option String × Option String :=
  if icdTest p then (acc.1, some p) else (some p, acc.2)

/-- The body of `extractMappingCodes` for a non-empty string input:
tokenize; with fewer than two tokens apply only the NAMASTE check (both
branches return the raw first token, or `null` when there is none);
otherwise scan all tokens left to right with `scanStep`. -/
def extractMappingCodesStr (s : String) : MappingCodes :=
  if (tokenize s).length < 2 then
    match tokenize s with
    | [] => ⟨none, none⟩
    | p :: _ =>
      if namasteTest p then ⟨some p, none⟩
      else ⟨(if p = "" then none else some p), none⟩
  else
    ⟨((tokenize s).foldl scanStep (none, none)).1,
     ((tokenize s).foldl scanStep (none, none)).2⟩

/-- `extractMappingCodes` including its falsy/non-string guard. -/
def extractMappingCodes : JsVal → MappingCodes
  | .jstr s => if s = "" then ⟨none, none⟩ else extractMappingCodesStr s
  | _ => ⟨none, none⟩

/-! ### Data model of the store -/

/-- One row of the `namaste_icd_mappings` table
(`UNIQUE(source_code, target_code)`). -/
structure CodeMapping where
  source_system : String
  source_code : String
  target_system : String
  target_code : String
deriving DecidableEq, Repr

/-- One row of a NAMASTE terminology table such as
`namaste_ayurveda_codes` (`code` is `UNIQUE NOT NULL`; `display`,
`definition` and `broader_term` are nullable text). -/
structure TerminologyEntry where
  code : String
  display : String
  definition : Option String
  broader_term : Option String
deriving DecidableEq, Repr

/-- The read-only database state seen by the translate endpoint: the shared
mapping table and the Ayurveda terminology table it queries. -/
structure Store where
  mappings : List CodeMapping
  ayurvedaCodes : List TerminologyEntry
deriving Repr

/-! ### The semantic-search collaborator -/

/-- One candidate returned by the AI service: `{ code, score }`. Scores are
modelled as rationals. -/
structure Suggestion where
  code : String
  score : Rat
deriving DecidableEq, Repr

/-- Outcome of one `POST /semantic_search` call: either a 2xx response
whose body may or may not carry a `suggestions` array, or a raised error
(network failure, non-2xx status). -/
inductive SemResult where
  | ok (suggestions : Option (List Suggestion))
  | err (message : String)

/-- The remote semantic-search service, as an oracle from
`(query, top_k)` to an outcome. -/
def SemClient : Type := String → Nat → SemResult

/-- Observable collaborator interactions of one translate request. -/
inductive Ev where
  | mapLookup (code : String)
  | termLookup (code : String)
  | semSearch (query : String) (topK : Nat)
deriving DecidableEq, Repr

/-- Recognizes semantic-search events in a trace. -/
def isSem : Ev → Bool
  | .semSearch _ _ => true
  | _ => false

/-- The three response shapes of the endpoint: `result:true` payloads,
`result:false` payloads (with an optional `method` field and a message),
and the error envelope `{ error, details? }` with its HTTP status. -/
inductive TranslateResponse where
  | success (method : String) (confidence : Rat) (translatedCode : String)
      (all_suggestions : List Suggestion)
  | negative (method : Option String) (message : String)
  | error (status : Nat) (error : String) (details : Option String)
deriving DecidableEq, Repr

/-! ### The translate endpoint -/

/-- JavaScript truthiness of an optional string parameter: `undefined` and
the empty string are falsy. -/
def jsTruthy : Option String → Bool
  | none => false
  | some s => decide (s ≠ "")

/-- Substring test `matchesAt pat cs`: `pat` occurs at the head of `cs`. -/
def matchesAt : List Char → List Char → Bool
  | [], _ => true
  | _ :: _, [] => false
  | p :: ps, c :: cs => (p = c) && matchesAt ps cs

/-- `containsSub cs pat`: `pat` occurs somewhere in `cs`. -/
def containsSub : List Char → List Char → Bool
  | [], pat => pat.isEmpty
  | c :: cs, pat => matchesAt pat (c :: cs) || containsSub cs pat

/-- JavaScript `s.includes(sub)`. -/
def strIncludes (s sub : String) : Bool := containsSub s.data sub.data

/-- The guard `system && system.includes('namaste')` of step 1. -/
def sysIndicatesNamaste (system : Option String) : Bool :=
  jsTruthy system && strIncludes (system.getD ("")) ("namaste")

/-- JavaScript `a || b` for a nullable string `a` and string `b`, as in
`rows[0].definition || rows[0].display`. -/
def jsOrStr : Option String → String → String
  | some d, dis => if d = "" then dis else d
  | none, dis => dis

/-- Tail of the endpoint from `if (!queryText)` on: a falsy query text
yields the `result:false` "no text available" response; otherwise the AI
service is called with `(queryText, top_k = 3)` and its outcome is relayed
(first suggestion as the answer, full list as `all_suggestions`), an
absent or empty suggestion list yields the `result:false` "no relevant
mappings" response, and a raised error yields the 500 error envelope. -/
def finishSemantic (client : SemClient) (queryText : Option String) (ev : List Ev) :
    TranslateResponse × List Ev :=
  if !jsTruthy queryText then
    (.negative none ("No deterministic mapping found and no text available for AI search."), ev)
  else
    match client (queryText.getD ("")) 3 with
    | .ok none =>
        (.negative (some ("semantic_ai")) ("AI search found no relevant mappings."),
         ev ++ [.semSearch (queryText.getD ("")) 3])
    | .ok (some []) =>
        (.negative (some ("semantic_ai")) ("AI search found no relevant mappings."),
         ev ++ [.semSearch (queryText.getD ("")) 3])
    | .ok (some (s0 :: rest)) =>
        (.success ("semantic_ai") s0.score s0.code (s0 :: rest),
         ev ++ [.semSearch (queryText.getD ("")) 3])
    | .err m =>
        (.error 500 ("AI reasoning engine is offline or failed.") (some m),
         ev ++ [.semSearch (queryText.getD ("")) 3])

/-- Step 2 of the endpoint: `queryText` starts as `text`; when that is
falsy and a code was given, the `namaste_ayurveda_codes` table is queried
for the code (regardless of `system`) and, when a row exists, `queryText`
becomes `definition || display` of the first row. -/
def semanticStage (st : Store) (client : SemClient) (code text : Option String)
    (ev : List Ev) : TranslateResponse × List Ev :=
  if !jsTruthy text && jsTruthy code then
    match st.ayurvedaCodes.filter (fun e => e.code == code.getD ("")) with
    | e :: _ =>
        finishSemantic client (some (jsOrStr e.definition e.display))
          (ev ++ [.termLookup (code.getD (""))])
    | [] => finishSemantic client text (ev ++ [.termLookup (code.getD (""))])
  else
    finishSemantic client text ev

/-- The endpoint `GET /ConceptMap/translate`. Validation: with both `code`
and `text` falsy it returns the 400 error envelope at once. Step 1: with a
truthy `code` and a `system` containing `"namaste"` it queries
`namaste_icd_mappings` by `source_code`; a hit returns the deterministic
response with confidence 1.0. Otherwise step 2 (`semanticStage`) runs. -/
def translate (st : Store) (client : SemClient) (code system text : Option String) :
    TranslateResponse × List Ev :=
  if !jsTruthy code && !jsTruthy text then
    (.error 400 ("Missing required parameters. Must provide \x27code\x27 or \x27text\x27.") none,
     [])
  else if jsTruthy code && sysIndicatesNamaste system then
    match st.mappings.filter (fun r => r.source_code == code.getD ("")) with
    | r :: _ =>
        (.success ("deterministic") 1 r.target_code [⟨r.target_code, 1⟩],
         [.mapLookup (code.getD (""))])
    | [] => semanticStage st client code text [.mapLookup (code.getD (""))]
  else
    semanticStage st client code text []

/-! ### The two ingestion upserts of `generateCodeSystem` -/

/-- The statement `INSERT INTO namaste_icd_mappings ... ON CONFLICT DO
NOTHING` under the constraint `UNIQUE(source_code, target_code)`: a row
whose key pair already exists is silently dropped. -/
def upsertMapping (tbl : List CodeMapping) (m : CodeMapping) : List CodeMapping :=
  if tbl.any (fun r => r.source_code == m.source_code && r.target_code == m.target_code) then
    tbl
  else
    tbl ++ [m]

/-- The statement `INSERT INTO <terminology table> ... ON CONFLICT (code)
DO UPDATE SET display = EXCLUDED.display, definition = EXCLUDED.definition,
broader_term = EXCLUDED.broader_term`: on a `code` conflict the non-key
columns are overwritten and the key is kept. -/
def upsertTermEntry (tbl : List TerminologyEntry) (e : TerminologyEntry) :
    List TerminologyEntry :=
  if tbl.any (fun r => r.code == e.code) then
    tbl.map (fun r =>
      if r.code == e.code then ⟨r.code, e.display, e.definition, e.broader_term⟩ else r)
  else
    tbl ++ [e]

/-- `SELECT ... FROM <terminology table> WHERE code = $1 LIMIT 1`. -/
def getByCode (tbl : List TerminologyEntry) (c : String) : Option TerminologyEntry :=
  (tbl.filter (fun r => r.code == c)).head?

/-! ### Lemmas about the normalizer -/

theorem takeWhile_nil_of_head {p : Char → Bool} {l : List Char} {c : Char}
    (h : l.head? = some c) (hc : p c = false) : l.takeWhile p = [] := by
  cases l with
  | nil => cases h
  | cons x xs =>
    have hx : x = c := by simpa using h
    subst hx
    simp [List.takeWhile_cons, hc]

theorem namasteTest_icdTest_false (t : String) (h : namasteTest t = true) :
    icdTest t = false := by
  unfold namasteTest at h
  rcases Bool.or_eq_true_iff.mp h with h1 | h2
  · have hhead : (t.data.dropWhile isUpperAZ).head? = some '-' := by
      have := (Bool.and_eq_true_iff.mp (Bool.and_eq_true_iff.mp
        (Bool.and_eq_true_iff.mp h1).1).1).2
      simpa using this
    have htake : (t.data.dropWhile isUpperAZ).takeWhile isDigit09 = [] :=
      takeWhile_nil_of_head hhead (by decide)
    unfold icdTest
    rw [htake]
    simp
  · have hall2 := (Bool.and_eq_true_iff.mp h2).2
    have hdrop : t.data.dropWhile isUpperAZ = [] := by
      rw [List.dropWhile_eq_nil_iff]
      simpa [List.all_eq_true] using hall2
    unfold icdTest
    rw [hdrop]
    simp

theorem splitWsAux_mem_ne_empty :
    ∀ (cs cur : List Char) (t : String), t ∈ splitWsAux cs cur → t ≠ "" := by
  intro cs
  induction cs with
  | nil =>
    intro cur t ht
    by_cases h : cur.isEmpty
    · simp [splitWsAux, h] at ht
    · simp [splitWsAux, h] at ht
      subst ht
      intro hc
      have : cur.reverse = [] := by simpa using congrArg String.data hc
      simp at this
      subst this
      simp at h
  | cons c cs ih =>
    intro cur t ht
    unfold splitWsAux at ht
    by_cases hw : isJsWs c = true
    · rw [if_pos hw] at ht
      by_cases h : cur.isEmpty
      · rw [if_pos h] at ht
        exact ih [] t ht
      · rw [if_neg h] at ht
        rcases List.mem_cons.mp ht with heq | hmem
        · subst heq
          intro hc
          have : cur.reverse = [] := by simpa using congrArg String.data hc
          simp at this
          subst this
          simp at h
        · exact ih [] t hmem
    · rw [if_neg hw] at ht
      exact ih (c :: cur) t ht

theorem tokenize_mem_ne_empty (s : String) (t : String) (ht : t ∈ tokenize s) : t ≠ "" :=
  splitWsAux_mem_ne_empty _ [] t ht

theorem head?_append_singleton_or (l : List String) (x : String) (b : Option String) :
    ((l ++ [x]).head?).or b = (l.head?).or (some x) := by
  cases l <;> simp [Option.or]

theorem foldl_scanStep (parts : List String) :
    ∀ a b : Option String,
      parts.foldl scanStep (a, b) =
        (((parts.filter (fun p => !icdTest p)).reverse.head?).or a,
         ((parts.filter (fun p => icdTest p)).reverse.head?).or b) := by
  induction parts with
  | nil => intro a b; simp
  | cons p ps ih =>
    intro a b
    rw [List.foldl_cons]
    by_cases hp : icdTest p = true
    · have hstep : scanStep (a, b) p = (a, some p) := by simp [scanStep, hp]
      rw [hstep, ih]
      rw [List.filter_cons, List.filter_cons]
      simp only [hp, Bool.not_true, if_false, if_true, List.reverse_cons]
      rw [head?_append_singleton_or]
      simp
    · have hstep : scanStep (a, b) p = (some p, b) := by simp [scanStep, hp]
      rw [hstep, ih]
      rw [List.filter_cons, List.filter_cons]
      simp only [hp, Bool.not_false, if_false, if_true, List.reverse_cons]
      rw [head?_append_singleton_or]
      simp [hp]

theorem extractStr_nil (s : String) (h : tokenize s = []) :
    extractMappingCodesStr s = ⟨none, none⟩ := by
  unfold extractMappingCodesStr
  rw [h]
  simp

theorem extractStr_single (s : String) (p : String) (h : tokenize s = [p]) :
    extractMappingCodesStr s = ⟨some p, none⟩ := by
  have hp : p ≠ "" := tokenize_mem_ne_empty s p (by rw [h]; exact List.mem_singleton.mpr rfl)
  unfold extractMappingCodesStr
  rw [h]
  simp [hp]

theorem extractStr_multi (s : String) (parts : List String) (h : tokenize s = parts)
    (h2 : 2 ≤ parts.length) :
    extractMappingCodesStr s =
      ⟨(parts.filter (fun p => !icdTest p)).reverse.head?,
       (parts.filter (fun p => icdTest p)).reverse.head?⟩ := by
  unfold extractMappingCodesStr
  rw [h, if_neg (by omega)]
  rw [foldl_scanStep]
  simp [Option.or_none]

theorem mem_of_rev_head? {l : List String} {t : String} (h : l.reverse.head? = some t) :
    t ∈ l := by
  cases hr : l.reverse with
  | nil => rw [hr] at h; cases h
  | cons x xs =>
    rw [hr] at h
    cases h
    have hx : t ∈ l.reverse := by rw [hr]; exact List.mem_cons_self _ _
    exact List.mem_reverse.mp hx

theorem replaceParens_of_ws (cs : List Char) (h : ∀ c ∈ cs, isJsWs c = true) :
    replaceParens cs = cs := by
  unfold replaceParens
  induction cs with
  | nil => rfl
  | cons c cs ih =>
    have hc := h c (List.mem_cons_self _ _)
    have hnp : ¬(c = '(' ∨ c = ')') := by
      rcases of_decide_eq_true hc with h1 | h1 | h1 | h1 <;> subst h1 <;> decide
    simp only [List.map_cons, if_neg hnp]
    rw [ih (fun x hx => h x (List.mem_cons_of_mem _ hx))]

theorem splitWsAux_all_ws (cs : List Char) (h : ∀ c ∈ cs, isJsWs c = true) :
    splitWsAux cs [] = [] := by
  induction cs with
  | nil => rfl
  | cons c cs ih =>
    unfold splitWsAux
    rw [if_pos (h c (List.mem_cons_self _ _))]
    simp only [List.isEmpty_nil, if_true]
    exact ih (fun x hx => h x (List.mem_cons_of_mem _ hx))

theorem tokenize_all_ws (s : String) (h : ∀ c ∈ s.data, isJsWs c = true) :
    tokenize s = [] := by
  unfold tokenize
  rw [replaceParens_of_ws s.data h]
  exact splitWsAux_all_ws s.data h

/-! ### Claim theorems: the normalizer -/

/-- C7: `extractMappingCodes` classifies tokens as follows. NAMASTE-grammar
tokens never match the ICD grammar, and the returned `icdCode`, when
present, matches the ICD grammar and not the NAMASTE grammar — so a
NAMASTE-shaped token is never returned as the ICD code. With two or more
tokens, the scan returns the last ICD-grammar token as `icdCode` (even when
NAMASTE-shaped tokens are present) and the last non-ICD token as
`namasteCode` — later assignments overwrite earlier ones. With exactly one
token, no ICD classification is attempted and the raw token is returned as
`namasteCode` whether or not the NAMASTE check succeeds. -/
theorem extractMappingCodes_classification :
    (∀ t, namasteTest t = true → icdTest t = false) ∧
    (∀ v t, (extractMappingCodes v).icdCode = some t →
      icdTest t = true ∧ namasteTest t = false) ∧
    (∀ s parts, tokenize s = parts → 2 ≤ parts.length →
      extractMappingCodes (.jstr s) =
        ⟨(parts.filter (fun p => !icdTest p)).reverse.head?,
         (parts.filter (fun p => icdTest p)).reverse.head?⟩) ∧
    (∀ s p, tokenize s = [p] → extractMappingCodes (.jstr s) = ⟨some p, none⟩) := by
  have hmulti : ∀ s parts, tokenize s = parts → 2 ≤ parts.length →
      extractMappingCodes (.jstr s) =
        ⟨(parts.filter (fun p => !icdTest p)).reverse.head?,
         (parts.filter (fun p => icdTest p)).reverse.head?⟩ := by
    intro s parts h h2
    by_cases hs : s = ""
    · subst hs
      have : parts = [] := by rw [← h]; rfl
      subst this
      simp at h2
    · show (if s = "" then (⟨none, none⟩ : MappingCodes) else extractMappingCodesStr s) = _
      rw [if_neg hs]
      exact extractStr_multi s parts h h2
  have hsingle : ∀ s p, tokenize s = [p] →
      extractMappingCodes (.jstr s) = ⟨some p, none⟩ := by
    intro s p h
    by_cases hs : s = ""
    · subst hs
      have : ([p] : List String) = [] := by rw [← h]; rfl
      cases this
    · show (if s = "" then (⟨none, none⟩ : MappingCodes) else extractMappingCodesStr s) = _
      rw [if_neg hs]
      exact extractStr_single s p h
  refine ⟨namasteTest_icdTest_false, ?_, hmulti, hsingle⟩
  intro v t h
  have hicd : icdTest t = true := by
    match v with
    | .jnull => cases h
    | .jundefined => cases h
    | .jbool b => cases h
    | .jnum n => cases h
    | .jstr s =>
      by_cases hs : s = ""
      · rw [show extractMappingCodes (.jstr s) = ⟨none, none⟩ from by
          show (if s = "" then (⟨none, none⟩ : MappingCodes) else _) = _
          rw [if_pos hs]] at h
        cases h
      · rw [show extractMappingCodes (.jstr s) = extractMappingCodesStr s from by
          show (if s = "" then (⟨none, none⟩ : MappingCodes) else _) = _
          rw [if_neg hs]] at h
        rcases htok : tokenize s with _ | ⟨p, _ | ⟨q, rest⟩⟩
        · rw [extractStr_nil s htok] at h; cases h
        · rw [extractStr_single s p htok] at h; cases h
        · rw [extractStr_multi s (p :: q :: rest) htok (by simp)] at h
          have hmem := mem_of_rev_head? h
          exact (List.mem_filter.mp hmem).2
  refine ⟨hicd, ?_⟩
  cases hn : namasteTest t with
  | false => rfl
  | true => rw [namasteTest_icdTest_false t hn] at hicd; cases hicd

/-- Witness for C7: on `"SR11 (AAA-1)"` (two tokens) the ICD-grammar token
`"SR11"` becomes the ICD code and the NAMASTE token `"AAA-1"` the NAMASTE
code; on the single token `"BB"` only the NAMASTE slot is filled. -/
theorem extractMappingCodes_classification_witness :
    extractMappingCodes (.jstr ("SR11 (AAA-1)")) =
      ⟨((["SR11", "AAA-1"] : List String).filter (fun p => !icdTest p)).reverse.head?,
       ((["SR11", "AAA-1"] : List String).filter (fun p => icdTest p)).reverse.head?⟩ ∧
    extractMappingCodes (.jstr ("BB")) = ⟨some ("BB"), none⟩ :=
  ⟨extractMappingCodes_classification.2.2.1 ("SR11 (AAA-1)") (["SR11", "AAA-1"])
      (by decide) (by decide),
   extractMappingCodes_classification.2.2.2 ("BB") ("BB") (by decide)⟩

/-- C10: `extractMappingCodes` is a total function of its input; on `null`,
`undefined`, booleans, numbers, the empty string and whitespace-only
strings it returns the pair `(null, null)` without failing. -/
theorem extractMappingCodes_total :
    extractMappingCodes .jnull = ⟨none, none⟩ ∧
    extractMappingCodes .jundefined = ⟨none, none⟩ ∧
    (∀ b, extractMappingCodes (.jbool b) = ⟨none, none⟩) ∧
    (∀ n, extractMappingCodes (.jnum n) = ⟨none, none⟩) ∧
    extractMappingCodes (.jstr ("")) = ⟨none, none⟩ ∧
    (∀ s, (∀ c ∈ s.data, isJsWs c = true) →
      extractMappingCodes (.jstr s) = ⟨none, none⟩) := by
  refine ⟨rfl, rfl, fun b => rfl, fun n => rfl, rfl, ?_⟩
  intro s h
  by_cases hs : s = ""
  · subst hs; rfl
  · show (if s = "" then (⟨none, none⟩ : MappingCodes) else extractMappingCodesStr s) = _
    rw [if_neg hs]
    exact extractStr_nil s (tokenize_all_ws s h)

/-- Witness for C10: a whitespace-only string yields `(null, null)`. -/
theorem extractMappingCodes_total_witness :
    extractMappingCodes (.jstr (" \t  ")) = ⟨none, none⟩ :=
  extractMappingCodes_total.2.2.2.2.2 (" \t  ") (by decide)

/-! ### Lemmas about the translate endpoint -/

theorem jsTruthy_some {c : String} (hc : c ≠ "") : jsTruthy (some c) = true := by
  simp [jsTruthy, hc]

theorem jsTruthy_eq_true {o : Option String} (h : jsTruthy o = true) :
    ∃ c, o = some c ∧ c ≠ "" := by
  cases o with
  | none => cases h
  | some c => exact ⟨c, rfl, by simpa [jsTruthy] using h⟩

theorem not_sem_mem_of_filter_nil {ev : List Ev} (h : ev.filter isSem = []) (q : String)
    (k : Nat) : Ev.semSearch q k ∉ ev := by
  intro hmem
  have hm : Ev.semSearch q k ∈ ev.filter isSem := List.mem_filter.mpr ⟨hmem, rfl⟩
  rw [h] at hm
  cases hm

theorem finishSemantic_falsy (client : SemClient) (qt : Option String)
    (h : jsTruthy qt = false) (ev : List Ev) :
    finishSemantic client qt ev =
      (.negative none ("No deterministic mapping found and no text available for AI search."),
       ev) := by
  unfold finishSemantic
  rw [h]
  simp

theorem finishSemantic_trace (client : SemClient) (q : String) (hq : q ≠ "") (ev : List Ev) :
    (finishSemantic client (some q) ev).2 = ev ++ [.semSearch q 3] := by
  unfold finishSemantic
  rw [jsTruthy_some hq]
  simp only [Bool.not_true, Bool.false_eq_true, if_false, Option.getD_some]
  cases client q 3 with
  | ok osug => cases osug with
    | none => rfl
    | some l => cases l <;> rfl
  | err m => rfl

theorem finishSemantic_ok_cons (client : SemClient) (q : String) (hq : q ≠ "")
    (ev : List Ev) (s0 : Suggestion) (rest : List Suggestion)
    (hc : client q 3 = .ok (some (s0 :: rest))) :
    (finishSemantic client (some q) ev).1 =
      .success ("semantic_ai") s0.score s0.code (s0 :: rest) := by
  unfold finishSemantic
  rw [jsTruthy_some hq]
  simp only [Bool.not_true, Bool.false_eq_true, if_false, Option.getD_some, hc]

theorem finishSemantic_ok_nil (client : SemClient) (q : String) (hq : q ≠ "")
    (ev : List Ev) (hc : client q 3 = .ok (some [])) :
    (finishSemantic client (some q) ev).1 =
      .negative (some ("semantic_ai")) ("AI search found no relevant mappings.") := by
  unfold finishSemantic
  rw [jsTruthy_some hq]
  simp only [Bool.not_true, Bool.false_eq_true, if_false, Option.getD_some, hc]

theorem finishSemantic_err (client : SemClient) (q : String) (hq : q ≠ "")
    (ev : List Ev) (m : String) (hc : client q 3 = .err m) :
    (finishSemantic client (some q) ev).1 =
      .error 500 ("AI reasoning engine is offline or failed.") (some m) := by
  unfold finishSemantic
  rw [jsTruthy_some hq]
  simp only [Bool.not_true, Bool.false_eq_true, if_false, Option.getD_some, hc]

theorem semanticStage_text (st : Store) (client : SemClient) (code : Option String)
    (t : String) (ht : t ≠ "") (ev : List Ev) :
    semanticStage st client code (some t) ev = finishSemantic client (some t) ev := by
  unfold semanticStage
  rw [jsTruthy_some ht]
  simp

theorem semanticStage_hit (st : Store) (client : SemClient) (c : String) (hc : c ≠ "")
    (ev : List Ev) (e : TerminologyEntry) (rest : List TerminologyEntry)
    (hfe : st.ayurvedaCodes.filter (fun r => r.code == c) = e :: rest) :
    semanticStage st client (some c) none ev =
      finishSemantic client (some (jsOrStr e.definition e.display))
        (ev ++ [.termLookup c]) := by
  unfold semanticStage
  rw [show jsTruthy none = false from rfl, jsTruthy_some hc]
  simp only [Bool.not_false, Bool.true_and, if_true, Option.getD_some, hfe]

theorem semanticStage_miss (st : Store) (client : SemClient) (c : String) (hc : c ≠ "")
    (ev : List Ev) (hfe : st.ayurvedaCodes.filter (fun r => r.code == c) = []) :
    semanticStage st client (some c) none ev =
      finishSemantic client none (ev ++ [.termLookup c]) := by
  unfold semanticStage
  rw [show jsTruthy none = false from rfl, jsTruthy_some hc]
  simp only [Bool.not_false, Bool.true_and, if_true, Option.getD_some, hfe]

theorem translate_stage2 (st : Store) (client : SemClient) (code system text : Option String)
    (hval : jsTruthy code = true ∨ jsTruthy text = true)
    (hmiss : ∀ c, code = some c → c ≠ "" → sysIndicatesNamaste system = true →
      st.mappings.filter (fun r => r.source_code == c) = []) :
    ∃ ev0, ev0.filter isSem = [] ∧
      translate st client code system text = semanticStage st client code text ev0 := by
  unfold translate
  have hg1 : (!jsTruthy code && !jsTruthy text) = false := by
    rcases hval with h | h <;> rw [h] <;> simp
  rw [hg1]
  simp only [Bool.false_eq_true, if_false]
  by_cases hg2 : (jsTruthy code && sysIndicatesNamaste system) = true
  · obtain ⟨c, rfl, hc⟩ := jsTruthy_eq_true (Bool.and_eq_true_iff.mp hg2).1
    rw [hg2]
    simp only [if_true, Option.getD_some]
    rw [hmiss c rfl hc (Bool.and_eq_true_iff.mp hg2).2]
    exact ⟨[.mapLookup c], rfl, rfl⟩
  · rw [Bool.eq_false_iff.mpr hg2]
    simp only [Bool.false_eq_true, if_false]
    exact ⟨[], rfl, rfl⟩

/-! ### Claim theorems: the translate endpoint -/

/-- C1: with a non-empty code, a system containing `"namaste"`, and a
mapping-table row for that code, the endpoint answers deterministically
with confidence 1.0 and the stored target code, performing only the one
mapping lookup — the semantic client is never invoked even when a text is
also supplied. -/
theorem translate_deterministic (st : Store) (client : SemClient) (c s : String)
    (text : Option String) (m : CodeMapping) (rest : List CodeMapping)
    (hc : c ≠ "") (hs : strIncludes s ("namaste") = true)
    (hrows : st.mappings.filter (fun r => r.source_code == c) = m :: rest) :
    translate st client (some c) (some s) text =
      (.success ("deterministic") 1 m.target_code [⟨m.target_code, 1⟩], [.mapLookup c]) ∧
    ∀ q k, Ev.semSearch q k ∉ (translate st client (some c) (some s) text).2 := by
  have hst : s ≠ "" := by
    intro h
    subst h
    simp [strIncludes, containsSub] at hs
  have hsys : sysIndicatesNamaste (some s) = true := by
    simp only [sysIndicatesNamaste, jsTruthy_some hst, Bool.true_and, Option.getD_some]
    exact hs
  have heq : translate st client (some c) (some s) text =
      (.success ("deterministic") 1 m.target_code [⟨m.target_code, 1⟩], [.mapLookup c]) := by
    unfold translate
    rw [jsTruthy_some hc, hsys]
    simp only [Bool.not_true, Bool.false_and, Bool.and_true, Bool.false_eq_true, if_false,
      if_true, Option.getD_some, hrows]
  refine ⟨heq, ?_⟩
  rw [heq]
  intro q k hmem
  simp at hmem

/-- Witness for C1: a concrete store, a dead semantic client and a
supplied text still yield the deterministic answer and a trace holding
only the mapping lookup. -/
theorem translate_deterministic_witness :
    translate (⟨[⟨("sys"), ("AAA-1"), ("icd"), ("SR11")⟩], []⟩ : Store)
        (fun _ _ => .err ("down")) (some ("AAA-1")) (some ("namaste-ayurveda"))
        (some ("vata imbalance")) =
      (.success ("deterministic") 1 ("SR11") [⟨("SR11"), 1⟩], [.mapLookup ("AAA-1")]) :=
  (translate_deterministic (⟨[⟨("sys"), ("AAA-1"), ("icd"), ("SR11")⟩], []⟩ : Store)
    (fun _ _ => .err ("down")) ("AAA-1") ("namaste-ayurveda") (some ("vata imbalance"))
    ⟨("sys"), ("AAA-1"), ("icd"), ("SR11")⟩ [] (by decide) (by decide) (by decide)).1

/-- C4: with both `code` and `text` absent the endpoint fails at once with
the 400 missing-parameters envelope and an empty trace — no store lookup
and no semantic call happen, whatever `system` is. -/
theorem translate_missing_params (st : Store) (client : SemClient) (system : Option String) :
    translate st client none system none =
      (.error 400 ("Missing required parameters. Must provide \x27code\x27 or \x27text\x27.")
        none, []) := rfl

/-- C9: the response depends on `system` only through the boolean
`sysIndicatesNamaste` (present and containing `"namaste"`): two requests
agreeing on that predicate get identical responses and traces. -/
theorem translate_system_noninterference (st : Store) (client : SemClient)
    (code text s1 s2 : Option String)
    (h : sysIndicatesNamaste s1 = sysIndicatesNamaste s2) :
    translate st client code s1 text = translate st client code s2 text := by
  unfold translate
  rw [h]

/-- Witness for C9: `namaste-siddha` and `namaste-ayurveda` agree on the
predicate, so a Siddha request is answered from the same tables as an
Ayurveda one. -/
theorem translate_system_noninterference_witness :
    translate (⟨[], []⟩ : Store) (fun _ _ => .ok none) (some ("AAA-1"))
        (some ("namaste-siddha")) none =
      translate (⟨[], []⟩ : Store) (fun _ _ => .ok none) (some ("AAA-1"))
        (some ("namaste-ayurveda")) none :=
  translate_system_noninterference (⟨[], []⟩ : Store) (fun _ _ => .ok none)
    (some ("AAA-1")) none (some ("namaste-siddha")) (some ("namaste-ayurveda")) (by decide)

/-- C2: when no deterministic mapping applies and a non-empty text is
supplied, the endpoint makes exactly one semantic call, with that exact
text and `top_k = 3`; a non-empty suggestion list is relayed unmodified
(first candidate as the answer, full list as `all_suggestions`), and an
empty list yields the `result:false` "no relevant mappings" response. -/
theorem translate_semantic_fallback (st : Store) (client : SemClient)
    (code system : Option String) (t : String) (ht : t ≠ "")
    (hmiss : ∀ c, code = some c → c ≠ "" → sysIndicatesNamaste system = true →
      st.mappings.filter (fun r => r.source_code == c) = []) :
    ((translate st client code system (some t)).2.filter isSem = [Ev.semSearch t 3]) ∧
    (∀ s0 rest, client t 3 = .ok (some (s0 :: rest)) →
      (translate st client code system (some t)).1 =
        .success ("semantic_ai") s0.score s0.code (s0 :: rest)) ∧
    (client t 3 = .ok (some []) →
      (translate st client code system (some t)).1 =
        .negative (some ("semantic_ai")) ("AI search found no relevant mappings.")) := by
  obtain ⟨ev0, hev0, heq⟩ := translate_stage2 st client code system (some t)
    (Or.inr (jsTruthy_some ht)) hmiss
  rw [heq, semanticStage_text st client code t ht ev0]
  refine ⟨?_, ?_, ?_⟩
  · rw [finishSemantic_trace client t ht ev0, List.filter_append, hev0]
    rfl
  · intro s0 rest hc
    exact finishSemantic_ok_cons client t ht ev0 s0 rest hc
  · intro hc
    exact finishSemantic_ok_nil client t ht ev0 hc

/-- Witness for C2: with no code at all, a text query is forwarded
verbatim to the client and the client's single candidate is relayed. -/
theorem translate_semantic_fallback_witness :
    ((translate (⟨[], []⟩ : Store) (fun _ _ => .ok (some [⟨("5A11"), (9 : Rat)/10⟩]))
        none none (some ("fever"))).2.filter isSem = [Ev.semSearch ("fever") 3]) ∧
    (translate (⟨[], []⟩ : Store) (fun _ _ => .ok (some [⟨("5A11"), (9 : Rat)/10⟩]))
        none none (some ("fever"))).1 =
      .success ("semantic_ai") ((9 : Rat)/10) ("5A11") [⟨("5A11"), (9 : Rat)/10⟩] := by
  have h := translate_semantic_fallback (⟨[], []⟩ : Store)
    (fun _ _ => .ok (some [⟨("5A11"), (9 : Rat)/10⟩])) none none ("fever")
    (by decide) (fun c hc => Option.noConfusion hc)
  exact ⟨h.1, h.2.1 ⟨("5A11"), (9 : Rat)/10⟩ [] rfl⟩

theorem finishSemantic_mem_err (client : SemClient) (qt : Option String) (ev : List Ev)
    (hev : ev.filter isSem = []) (q : String) (k : Nat) (m : String)
    (hmem : Ev.semSearch q k ∈ (finishSemantic client qt ev).2)
    (hresp : client q k = .err m) :
    (finishSemantic client qt ev).1 =
      .error 500 ("AI reasoning engine is offline or failed.") (some m) := by
  cases hq : jsTruthy qt with
  | false =>
    rw [finishSemantic_falsy client qt hq ev] at hmem
    exact absurd hmem (not_sem_mem_of_filter_nil hev q k)
  | true =>
    obtain ⟨q0, rfl, hq0⟩ := jsTruthy_eq_true hq
    rw [finishSemantic_trace client q0 hq0 ev] at hmem
    rcases List.mem_append.mp hmem with hin | hin
    · exact absurd hin (not_sem_mem_of_filter_nil hev q k)
    · have hqk : q = q0 ∧ k = 3 := by simpa using hin
      rw [hqk.1, hqk.2] at hresp
      exact finishSemantic_err client q0 hq0 ev m hresp

theorem semanticStage_mem_err (st : Store) (client : SemClient) (code text : Option String)
    (ev : List Ev) (hev : ev.filter isSem = []) (q : String) (k : Nat) (m : String)
    (hmem : Ev.semSearch q k ∈ (semanticStage st client code text ev).2)
    (hresp : client q k = .err m) :
    (semanticStage st client code text ev).1 =
      .error 500 ("AI reasoning engine is offline or failed.") (some m) := by
  unfold semanticStage at hmem ⊢
  by_cases hg : (!jsTruthy text && jsTruthy code) = true
  · rw [if_pos hg] at hmem ⊢
    cases hfe : st.ayurvedaCodes.filter (fun e => e.code == code.getD ("")) with
    | nil =>
      rw [hfe] at hmem
      exact finishSemantic_mem_err client text (ev ++ [Ev.termLookup (code.getD (""))])
        (by rw [List.filter_append, hev]; rfl) q k m hmem hresp
    | cons e rest =>
      rw [hfe] at hmem
      exact finishSemantic_mem_err client (some (jsOrStr e.definition e.display))
        (ev ++ [Ev.termLookup (code.getD (""))])
        (by rw [List.filter_append, hev]; rfl) q k m hmem hresp
  · rw [if_neg hg] at hmem ⊢
    exact finishSemantic_mem_err client text ev hev q k m hmem hresp

/-- C3: whenever the trace shows a semantic call was made and the client
raised an error on that call, the endpoint returns the 500 error envelope
— never a `result:false` negative-lookup response. -/
theorem translate_client_error (st : Store) (client : SemClient)
    (code system text : Option String) (q : String) (k : Nat) (m : String)
    (hmem : Ev.semSearch q k ∈ (translate st client code system text).2)
    (hresp : client q k = .err m) :
    (translate st client code system text).1 =
      .error 500 ("AI reasoning engine is offline or failed.") (some m) := by
  unfold translate at hmem ⊢
  by_cases hg1 : (!jsTruthy code && !jsTruthy text) = true
  · rw [if_pos hg1] at hmem
    simp at hmem
  · rw [if_neg hg1] at hmem ⊢
    by_cases hg2 : (jsTruthy code && sysIndicatesNamaste system) = true
    · rw [if_pos hg2] at hmem ⊢
      cases hrows : st.mappings.filter (fun r => r.source_code == code.getD ("")) with
      | cons r rest =>
        rw [hrows] at hmem
        simp at hmem
      | nil =>
        rw [hrows] at hmem
        exact semanticStage_mem_err st client code text [Ev.mapLookup (code.getD (""))]
          rfl q k m hmem hresp
    · rw [if_neg hg2] at hmem ⊢
      exact semanticStage_mem_err st client code text [] rfl q k m hmem hresp

/-- Witness for C3: a dead client turns a plain text query into the 500
envelope carrying the client's error message. -/
theorem translate_client_error_witness :
    (translate (⟨[], []⟩ : Store) (fun _ _ => .err ("ECONNREFUSED")) none none
        (some ("fever"))).1 =
      .error 500 ("AI reasoning engine is offline or failed.") (some ("ECONNREFUSED")) :=
  translate_client_error (⟨[], []⟩ : Store) (fun _ _ => .err ("ECONNREFUSED")) none none
    (some ("fever")) ("fever") 3 ("ECONNREFUSED") (by decide) rfl

/-- C5: a non-empty code with no mapping row, no text, and no terminology
row resolves to the `result:false` "no text available" response, and no
semantic call appears in the trace. -/
theorem translate_notfound_no_text (st : Store) (client : SemClient) (c : String)
    (system : Option String) (hc : c ≠ "")
    (hmap : st.mappings.filter (fun r => r.source_code == c) = [])
    (hterm : st.ayurvedaCodes.filter (fun r => r.code == c) = []) :
    (translate st client (some c) system none).1 =
      .negative none ("No deterministic mapping found and no text available for AI search.") ∧
    ∀ q k, Ev.semSearch q k ∉ (translate st client (some c) system none).2 := by
  obtain ⟨ev0, hev0, heq⟩ := translate_stage2 st client (some c) system none
    (Or.inl (jsTruthy_some hc)) (by intro c2 hc2 _ _; cases hc2; exact hmap)
  rw [heq, semanticStage_miss st client c hc ev0 hterm,
    finishSemantic_falsy client none rfl (ev0 ++ [Ev.termLookup c])]
  refine ⟨rfl, ?_⟩
  intro q k
  apply not_sem_mem_of_filter_nil
  rw [List.filter_append, hev0]
  rfl

/-- Witness for C5: an unknown code with no text yields the negative
response even though the client is live. -/
theorem translate_notfound_no_text_witness :
    (translate (⟨[], []⟩ : Store) (fun _ _ => .ok (some [⟨("5A11"), 1⟩])) (some ("ZZZ-9"))
        (some ("namaste-unani")) none).1 =
      .negative none
        ("No deterministic mapping found and no text available for AI search.") :=
  (translate_notfound_no_text (⟨[], []⟩ : Store) (fun _ _ => .ok (some [⟨("5A11"), 1⟩]))
    ("ZZZ-9") (some ("namaste-unani")) (by decide) (by decide) (by decide)).1

/-- C6: when the semantic stage is reached with a code and no text — which
requires only that the deterministic stage would miss when it is consulted
at all, so a system that is absent or does not contain `"namaste"` is also
covered — the query text sent to the client is the terminology row's
definition when that is a non-empty string, else its display term; with no
terminology row the request resolves to the negative response with no
semantic call. -/
theorem translate_definition_resolver (st : Store) (client : SemClient) (c : String)
    (system : Option String) (hc : c ≠ "")
    (hmap : sysIndicatesNamaste system = true →
      st.mappings.filter (fun r => r.source_code == c) = []) :
    (∀ e rest d, st.ayurvedaCodes.filter (fun r => r.code == c) = e :: rest →
      e.definition = some d → d ≠ "" →
      (translate st client (some c) system none).2.filter isSem = [Ev.semSearch d 3]) ∧
    (∀ e rest, st.ayurvedaCodes.filter (fun r => r.code == c) = e :: rest →
      e.definition = none → e.display ≠ "" →
      (translate st client (some c) system none).2.filter isSem =
        [Ev.semSearch e.display 3]) ∧
    (st.ayurvedaCodes.filter (fun r => r.code == c) = [] →
      (translate st client (some c) system none).1 =
        .negative none
          ("No deterministic mapping found and no text available for AI search.") ∧
      (translate st client (some c) system none).2.filter isSem = []) := by
  obtain ⟨ev0, hev0, heq⟩ := translate_stage2 st client (some c) system none
    (Or.inl (jsTruthy_some hc)) (by intro c2 hc2 _ hsys; cases hc2; exact hmap hsys)
  refine ⟨?_, ?_, ?_⟩
  · intro e rest d hfe hdef hd
    rw [heq, semanticStage_hit st client c hc ev0 e rest hfe]
    have hj : jsOrStr e.definition e.display = d := by rw [hdef]; simp [jsOrStr, hd]
    rw [hj, finishSemantic_trace client d hd (ev0 ++ [Ev.termLookup c]),
      List.filter_append, List.filter_append, hev0]
    rfl
  · intro e rest hfe hdef hdisp
    rw [heq, semanticStage_hit st client c hc ev0 e rest hfe]
    have hj : jsOrStr e.definition e.display = e.display := by rw [hdef]; simp [jsOrStr]
    rw [hj, finishSemantic_trace client e.display hdisp (ev0 ++ [Ev.termLookup c]),
      List.filter_append, List.filter_append, hev0]
    rfl
  · intro hfe
    rw [heq, semanticStage_miss st client c hc ev0 hfe,
      finishSemantic_falsy client none rfl (ev0 ++ [Ev.termLookup c])]
    refine ⟨rfl, ?_⟩
    rw [List.filter_append, hev0]
    rfl

/-- Witness for C6: with no system supplied the deterministic stage is
skipped even though a mapping row for the code exists, and the resolver
still sends the terminology row's long definition to the client. -/
theorem translate_definition_resolver_witness :
    (translate
        (⟨[⟨("sys"), ("AAA-2"), ("icd"), ("SR11")⟩],
          [⟨("AAA-2"), ("display term"), some ("a long definition"), none⟩]⟩ : Store)
        (fun _ _ => .ok (some [⟨("5A11"), 1⟩])) (some ("AAA-2")) none none).2.filter isSem =
      [Ev.semSearch ("a long definition") 3] :=
  (translate_definition_resolver
      (⟨[⟨("sys"), ("AAA-2"), ("icd"), ("SR11")⟩],
        [⟨("AAA-2"), ("display term"), some ("a long definition"), none⟩]⟩ : Store)
      (fun _ _ => .ok (some [⟨("5A11"), 1⟩])) ("AAA-2") none
      (by decide) (by decide)).1
    ⟨("AAA-2"), ("display term"), some ("a long definition"), none⟩ [] ("a long definition")
    (by decide) rfl (by decide)

/-! ### Lemmas about the ingestion upserts -/

theorem upsertMapping_conflict (tbl : List CodeMapping) (m : CodeMapping)
    (h : tbl.any (fun r => r.source_code == m.source_code &&
      r.target_code == m.target_code) = true) :
    upsertMapping tbl m = tbl := by
  unfold upsertMapping
  rw [if_pos h]

theorem upsertMapping_key_present (tbl : List CodeMapping) (m : CodeMapping) :
    (upsertMapping tbl m).any (fun r => r.source_code == m.source_code &&
      r.target_code == m.target_code) = true := by
  unfold upsertMapping
  by_cases h : tbl.any (fun r => r.source_code == m.source_code &&
      r.target_code == m.target_code) = true
  · rw [if_pos h]
    exact h
  · rw [if_neg h, List.any_append]
    simp

theorem upsertTermEntry_conflict (tbl : List TerminologyEntry) (e : TerminologyEntry)
    (h : tbl.any (fun r => r.code == e.code) = true) :
    upsertTermEntry tbl e =
      tbl.map (fun r =>
        if r.code == e.code then ⟨r.code, e.display, e.definition, e.broader_term⟩ else r) := by
  unfold upsertTermEntry
  rw [if_pos h]

theorem upsertTermEntry_key_present (tbl : List TerminologyEntry) (e : TerminologyEntry) :
    (upsertTermEntry tbl e).any (fun r => r.code == e.code) = true := by
  unfold upsertTermEntry
  by_cases h : tbl.any (fun r => r.code == e.code) = true
  · rw [if_pos h]
    rw [List.any_eq_true] at h ⊢
    obtain ⟨r, hr, hpred⟩ := h
    refine ⟨(if r.code == e.code then ⟨r.code, e.display, e.definition, e.broader_term⟩
      else r : TerminologyEntry), List.mem_map_of_mem _ hr, ?_⟩
    rw [if_pos hpred]
    exact hpred
  · rw [if_neg h, List.any_append]
    simp

/-! ### Claim theorem: the two upserts -/

/-- C8: re-running a `CodeMapping` upsert with the same
`(source_code, target_code)` pair is a no-op — even when the non-key
columns differ, nothing is updated — while re-running a
`TerminologyEntry` upsert for an existing code overwrites display,
definition and broader term and preserves the code. -/
theorem upsert_asymmetry :
    (∀ (tbl : List CodeMapping) (m : CodeMapping),
      upsertMapping (upsertMapping tbl m) m = upsertMapping tbl m) ∧
    (∀ (tbl : List CodeMapping) (m m2 : CodeMapping),
      m2.source_code = m.source_code → m2.target_code = m.target_code →
      upsertMapping (upsertMapping tbl m) m2 = upsertMapping tbl m) ∧
    (∀ (tbl : List TerminologyEntry) (e e2 : TerminologyEntry), e2.code = e.code →
      getByCode (upsertTermEntry (upsertTermEntry tbl e) e2) e.code =
        some ⟨e.code, e2.display, e2.definition, e2.broader_term⟩) := by
  have h2 : ∀ (tbl : List CodeMapping) (m m2 : CodeMapping),
      m2.source_code = m.source_code → m2.target_code = m.target_code →
      upsertMapping (upsertMapping tbl m) m2 = upsertMapping tbl m := by
    intro tbl m m2 hs ht
    apply upsertMapping_conflict
    rw [hs, ht]
    exact upsertMapping_key_present tbl m
  refine ⟨fun tbl m => h2 tbl m m rfl rfl, h2, ?_⟩
  intro tbl e e2 he
  have h1 : (upsertTermEntry tbl e).any (fun r => r.code == e2.code) = true := by
    rw [he]
    exact upsertTermEntry_key_present tbl e
  rw [upsertTermEntry_conflict _ e2 h1]
  unfold getByCode
  rw [List.filter_map]
  have hpf : ((fun r : TerminologyEntry => r.code == e.code) ∘
      (fun r : TerminologyEntry =>
        if r.code == e2.code then ⟨r.code, e2.display, e2.definition, e2.broader_term⟩
        else r)) = (fun r : TerminologyEntry => r.code == e.code) := by
    funext r
    simp only [Function.comp]
    by_cases hr : (r.code == e2.code) = true
    · rw [if_pos hr]
    · rw [if_neg hr]
  rw [hpf]
  have h1e := upsertTermEntry_key_present tbl e
  rw [List.any_eq_true] at h1e
  obtain ⟨r0, hr0, hp0⟩ := h1e
  cases hfe : (upsertTermEntry tbl e).filter (fun r => r.code == e.code) with
  | nil =>
    have hmem : r0 ∈ (upsertTermEntry tbl e).filter (fun r => r.code == e.code) :=
      List.mem_filter.mpr ⟨hr0, hp0⟩
    rw [hfe] at hmem
    cases hmem
  | cons x xs =>
    have hxmem : x ∈ (upsertTermEntry tbl e).filter (fun r => r.code == e.code) := by
      rw [hfe]
      exact List.mem_cons_self x xs
    have hx : (x.code == e.code) = true := (List.mem_filter.mp hxmem).2
    have hxe : x.code = e.code := eq_of_beq hx
    simp only [List.map_cons, List.head?_cons]
    rw [if_pos (by rw [he]; exact hx)]
    rw [hxe]

/-- Witness for C8: a duplicate mapping write with different non-key
columns is dropped, while a second terminology write for the same code
replaces display and definition. -/
theorem upsert_asymmetry_witness :
    upsertMapping
        (upsertMapping ([] : List CodeMapping) ⟨("sysA"), ("AAA-1"), ("icd"), ("SR11")⟩)
        ⟨("sysB"), ("AAA-1"), ("other"), ("SR11")⟩ =
      upsertMapping ([] : List CodeMapping) ⟨("sysA"), ("AAA-1"), ("icd"), ("SR11")⟩ ∧
    getByCode
        (upsertTermEntry
          (upsertTermEntry ([] : List TerminologyEntry)
            ⟨("AAA-1"), ("old display"), none, none⟩)
          ⟨("AAA-1"), ("new display"), some ("a definition"), none⟩) ("AAA-1") =
      some ⟨("AAA-1"), ("new display"), some ("a definition"), none⟩ :=
  ⟨upsert_asymmetry.2.1 [] ⟨("sysA"), ("AAA-1"), ("icd"), ("SR11")⟩
      ⟨("sysB"), ("AAA-1"), ("other"), ("SR11")⟩ rfl rfl,
   upsert_asymmetry.2.2 [] ⟨("AAA-1"), ("old display"), none, none⟩
      ⟨("AAA-1"), ("new display"), some ("a definition"), none⟩ rfl⟩

end AstraAPI
